import Mathlib

/-!
Shallow embedding of the container lifecycle manager (ser/app.py) and the
in-container worker (ser/worker.py).  Python dicts are modelled as
association lists with unique keys manipulated only through `dictLookup`,
`dictInsert` and `dictErase`; the Docker runtime, the worker HTTP probe and
the workflow execution engine are modelled as oracles passed to each
operation, since the code only observes them through their responses.
-/

namespace Spec2Proof

/-- Lookup in an association list, first match wins (Python dict lookup). -/
def dictLookup {α β : Type} [DecidableEq α] : List (α × β) → α → Option β
  | [], _ => none
  | e :: rest, k => if e.1 = k then some e.2 else dictLookup rest k

/-- Remove every pair with the given key (Python `del d[k]`, also a no-op
when the key is absent, matching the guarded deletes in the source). -/
def dictErase {α β : Type} [DecidableEq α] : List (α × β) → α → List (α × β)
  | [], _ => []
  | e :: rest, k => if e.1 = k then dictErase rest k else e :: dictErase rest k

/-- Python `d[k] = v`: the map afterwards sends `k` to `v` and every other
key to its previous value. -/
def dictInsert {α β : Type} [DecidableEq α] (l : List (α × β)) (k : α) (v : β) :
    List (α × β) :=
  (k, v) :: dictErase l k

/-! ## Manager data model (ser/app.py) -/

/-- `ContainerInfo` dataclass of ser/app.py. -/
structure ContainerInfo where
  artifact_id : String
  container_id : String
  port : Nat
  status : String
  start_time : Nat
  last_health_check : Nat
  health_status : String
  error : Option String
deriving DecidableEq, Repr

/-- The manager's two module-level tables: `containers` (artifact id to
record) and `active_ports` (port to artifact id). -/
structure ManagerState where
  containers : List (String × ContainerInfo)
  active_ports : List (Nat × String)
deriving DecidableEq, Repr

def BASE_PORT : Nat := 5002
def MAX_PORT : Nat := 5050

/-- `find_available_port` scans `range(BASE_PORT, MAX_PORT + 1)` for the
first port not in `active_ports`; `none` models the `RuntimeError`. -/
def findPortAux (active : List (Nat × String)) : List Nat → Option Nat
  | [] => none
  | p :: rest => if dictLookup active p = none then some p else findPortAux active rest

def portRange : List Nat := (List.range (MAX_PORT + 1 - BASE_PORT)).map (fun i => BASE_PORT + i)

def find_available_port (active : List (Nat × String)) : Option Nat :=
  findPortAux active portRange

/-- Response of `docker_client.containers.get` on a tracked container id. -/
inductive GetResult where
  | found (status : String)
  | notFound
deriving DecidableEq, Repr

/-- Outcome of `create_docker_container(artifact_id, port)`: success with
the new container id and the host port reported by the runtime's port
mapping, a `docker.errors.APIError` whose text contains
"port is already allocated", or any other fatal exception. -/
inductive CreateResult where
  | ok (containerId : String) (hostPort : Nat)
  | portAllocated
  | fatal (msg : String)
deriving DecidableEq, Repr

/-- Runtime responses consumed by one `start_container` request. -/
structure StartOracle where
  getStatus : GetResult
  create : Nat → CreateResult

inductive StartResult where
  | success (containerId : String) (port : Nat)
  | error (msg : String)
deriving DecidableEq, Repr

/-- Record registered on successful creation (lines 193-199 of app.py). -/
def mkRunningInfo (a cid : String) (hostPort now : Nat) : ContainerInfo :=
  { artifact_id := a, container_id := cid, port := hostPort, status := "running",
    start_time := now, last_health_check := 0, health_status := "unknown",
    error := none }

/-- The port-search loop of `start_container` (lines 184-217): try each
candidate port in order, retry on a port-conflict error, abort on any other
runtime error, register the record and the port table entry on success. -/
def createLoop (o : Nat → CreateResult) (a : String) (now : Nat)
    (s : ManagerState) : List Nat → StartResult × ManagerState
  | [] => (StartResult.error "No available ports in range", s)
  | p :: rest =>
    match o p with
    | CreateResult.ok cid hostPort =>
        (StartResult.success cid hostPort,
         { containers := dictInsert s.containers a (mkRunningInfo a cid hostPort now),
           active_ports := dictInsert s.active_ports hostPort a })
    | CreateResult.portAllocated => createLoop o a now s rest
    | CreateResult.fatal msg => (StartResult.error msg, s)

/-- The candidate ports of the creation loop: `range(BASE_PORT, BASE_PORT + 100)`. -/
def attemptPorts : List Nat := (List.range 100).map (fun i => BASE_PORT + i)

/-- `start_container` (app.py lines 143-224), after request validation. -/
def start_container (o : StartOracle) (now : Nat) (a : String)
    (s : ManagerState) : StartResult × ManagerState :=
  match dictLookup s.containers a with
  | some info =>
    match o.getStatus with
    | GetResult.found st =>
      if st = "running" then
        (StartResult.success info.container_id info.port, s)
      else
        createLoop o.create a now s attemptPorts
    | GetResult.notFound =>
        createLoop o.create a now
          { containers := dictErase s.containers a,
            active_ports := dictErase s.active_ports info.port }
          attemptPorts
  | none => createLoop o.create a now s attemptPorts

/-- Runtime outcome of the stop-and-remove sequence in `stop_container`. -/
inductive StopOutcome where
  | stopped
  | notFound
  | failed (msg : String)
deriving DecidableEq, Repr

inductive StopResult where
  | success (msg : String)
  | error (msg : String)
deriving DecidableEq, Repr

/-- `stop_container` (app.py lines 226-290), after request validation. -/
def stop_container (o : StopOutcome) (a : String) (s : ManagerState) :
    StopResult × ManagerState :=
  match dictLookup s.containers a with
  | none => (StopResult.success "Container not found or already stopped", s)
  | some info =>
    match o with
    | StopOutcome.stopped =>
        (StopResult.success "Container stopped and removed successfully",
         { containers := dictErase s.containers a,
           active_ports := dictErase s.active_ports info.port })
    | StopOutcome.notFound =>
        (StopResult.success "Container not found or already removed",
         { containers := dictErase s.containers a,
           active_ports := dictErase s.active_ports info.port })
    | StopOutcome.failed msg => (StopResult.error msg, s)

/-- Worker health probe outcome (`requests.get` on the worker's /health). -/
inductive ProbeResult where
  | ok (workerStatus : String)
  | badStatus (code : Nat)
  | unreachable (msg : String)
deriving DecidableEq, Repr

/-- Runtime and probe responses consumed by one `container_health` request:
the `containers.get` result, the `State.Running` flag and status string of
the inspect payload, and the HTTP probe result. -/
structure HealthOracle where
  get : GetResult
  inspectRunning : Bool
  inspectStatus : String
  probe : ProbeResult

inductive HealthResult where
  | stopped (msg : String)
  | running (containerId : String) (port : Nat)
  | error (msg : String)
deriving DecidableEq, Repr

/-- `container_health` (app.py lines 292-460), after request validation. -/
def container_health (o : HealthOracle) (now : Nat) (a : String)
    (s : ManagerState) : HealthResult × ManagerState :=
  match dictLookup s.containers a with
  | none => (HealthResult.stopped "Container not found", s)
  | some info =>
    match o.get with
    | GetResult.notFound =>
        (HealthResult.stopped "Container not found in Docker",
         { containers := dictErase s.containers a,
           active_ports := dictErase s.active_ports info.port })
    | GetResult.found _ =>
      if o.inspectRunning = false then
        (HealthResult.stopped "Container is not running",
         { containers := dictInsert s.containers a
             { info with status := "stopped", health_status := "stopped",
                         last_health_check := now },
           active_ports := s.active_ports })
      else
        match o.probe with
        | ProbeResult.ok ws =>
            (HealthResult.running info.container_id info.port,
             { containers := dictInsert s.containers a
                 { info with status := "running", health_status := ws,
                             last_health_check := now, error := none },
               active_ports := s.active_ports })
        | ProbeResult.badStatus _ =>
            (HealthResult.error "Worker health check failed",
             { containers := dictInsert s.containers a
                 { info with status := "error", health_status := "error",
                             last_health_check := now,
                             error := some "Worker health check failed" },
               active_ports := s.active_ports })
        | ProbeResult.unreachable m =>
            (HealthResult.error "Failed to connect to worker",
             { containers := dictInsert s.containers a
                 { info with status := "error", health_status := "unreachable",
                             last_health_check := now, error := some m },
               active_ports := s.active_ports })

/-- Forwarding outcome of the proxied `POST /execute` to the worker. -/
inductive ForwardResult where
  | okResp (body : String)
  | badResp (code : Nat) (text : String)
  | netError (msg : String)
deriving DecidableEq, Repr

inductive ExecResult where
  | badRequest (msg : String)
  | notFound (msg : String)
  | invalidState (msg : String)
  | workerOk (body : String)
  | workerErr (code : Nat) (text : String)
  | proxyErr (msg : String)
deriving DecidableEq, Repr

/-- Request body of `/container/execute`; `none` fields model absent keys. -/
structure ExecBody where
  artifactId : Option String
  content : Option String
deriving DecidableEq, Repr

/-- `container_execute` (app.py lines 654-737).  The returned Bool records
whether any HTTP request reached the worker (the advisory health pre-check
and the forwarded execute both live in the forwarding branch). -/
def container_execute (fwd : ForwardResult) (body : ExecBody)
    (s : ManagerState) : ExecResult × Bool :=
  match body.artifactId, body.content with
  | some a, some _ =>
    (match dictLookup s.containers a with
     | none => (ExecResult.notFound "Container not found", false)
     | some info =>
       if info.status = "running" then
         match fwd with
         | ForwardResult.okResp b => (ExecResult.workerOk b, true)
         | ForwardResult.badResp c t => (ExecResult.workerErr c t, true)
         | ForwardResult.netError m => (ExecResult.proxyErr m, true)
       else
         (ExecResult.invalidState
           (String.append "Container is not running: " info.status), false))
  | _, _ => (ExecResult.badRequest "Missing artifactId or content", false)

/-! ## Worker data model (ser/worker.py) -/

/-- `ExecutionInfo` dataclass of ser/worker.py (the unused `logs` field is
kept for fidelity). -/
structure ExecutionInfo where
  id : String
  status : String
  start_time : Nat
  result : Option String
  error : Option String
  logs : List String
deriving DecidableEq, Repr

/-- One entry appended by `add_execution_log`. -/
structure HistEntry where
  timestamp : Nat
  status : String
  message : String
deriving DecidableEq, Repr

/-- The worker's module-level state: `active_executions`,
`execution_history` (execution id to its ordered entry list) and the FIFO
`execution_queue` (head is the next item dequeued). -/
structure WorkerState where
  active_executions : List (String × ExecutionInfo)
  execution_history : List (String × List HistEntry)
  queue : List (String × String)
deriving DecidableEq, Repr

def winit : WorkerState := { active_executions := [], execution_history := [], queue := [] }

/-- `add_execution_log` (worker.py lines 78-87). -/
def add_execution_log (h : List (String × List HistEntry)) (id : String)
    (now : Nat) (status msg : String) : List (String × List HistEntry) :=
  match dictLookup h id with
  | none => dictInsert h id [{ timestamp := now, status := status, message := msg }]
  | some l => dictInsert h id (l ++ [{ timestamp := now, status := status, message := msg }])

/-- `sorted(execution_history.keys())[0]`: the minimal key in sort order. -/
def minKey {β : Type} : List (String × β) → Option String
  | [] => none
  | e :: rest =>
    match minKey rest with
    | none => some e.1
    | some k => if e.1 < k then some e.1 else some k

/-- The history-trim block of `cleanup_old_executions`: when the global
history exceeds 20 executions, delete the entry with the smallest key in
sort order (`sorted(execution_history.keys())[0]`). -/
def sweepEvict (st1 : WorkerState) : WorkerState :=
  if 20 < st1.execution_history.length then
    match minKey st1.execution_history with
    | some k => { st1 with execution_history := dictErase st1.execution_history k }
    | none => st1
  else st1

/-- Body of the loop in `cleanup_old_executions` (worker.py lines 89-102)
for one snapshot entry: delete the record when it is terminal and older
than one hour, and in that case run the history-trim block. -/
def sweepStep (now : Nat) (key : String) (info : ExecutionInfo)
    (st : WorkerState) : WorkerState :=
  if (info.status = "completed" ∨ info.status = "failed") ∧ 3600 < now - info.start_time then
    sweepEvict { st with active_executions := dictErase st.active_executions key }
  else st

/-- `cleanup_old_executions` iterates over a snapshot of the keys of
`active_executions`. -/
def cleanup_old_executions (now : Nat) (st : WorkerState) : WorkerState :=
  st.active_executions.foldl (fun s e => sweepStep now e.1 e.2 s) st

inductive SubmitResult where
  | accepted (execId : String)
  | badRequest (msg : String)
deriving DecidableEq, Repr

/-- `execute_workflow` (worker.py lines 152-194): the submit endpoint.
`body = none` models a request whose JSON lacks the `content` field (or is
empty); `id` is the fresh uuid generated for the submission. -/
def execute_workflow (id : String) (now : Nat) (body : Option String)
    (st : WorkerState) : SubmitResult × WorkerState :=
  match body with
  | none => (SubmitResult.badRequest "Missing workflow content", st)
  | some content =>
    let qinfo : ExecutionInfo :=
      { id := id, status := "queued", start_time := now,
        result := none, error := none, logs := [] }
    let st1 := { st with active_executions := (dictInsert st.active_executions id qinfo) }
    let st2 := { st1 with execution_history := (add_execution_log st1.execution_history id now "queued" "Workflow queued for execution") }
    let st3 := { st2 with queue := (st2.queue ++ [(id, content)]) }
    (SubmitResult.accepted id, st3)

/-- Outcome of `executor.execute(content)` on one dequeued item. -/
inductive EngineResult where
  | ok (res : String)
  | err (msg : String)
deriving DecidableEq, Repr

/-- One iteration of `process_execution_queue` (worker.py lines 104-145):
dequeue, skip if the record vanished, else append a running history entry,
run the engine, record completed/failed, and always run the retention sweep
(the `finally` block). -/
def processQueueItem (engine : EngineResult) (now : Nat) (st : WorkerState) :
    WorkerState :=
  match st.queue with
  | [] => st
  | (exec_id, _) :: rest =>
    let st1 := { st with queue := rest }
    match dictLookup st1.active_executions exec_id with
    | none => cleanup_old_executions now st1
    | some execution =>
      let st2 := { st1 with execution_history := (add_execution_log st1.execution_history exec_id now "running" "Starting execution") }
      match engine with
      | EngineResult.ok res =>
        let done : ExecutionInfo := { execution with status := "completed", result := some res }
        let st3 := { st2 with active_executions := (dictInsert st2.active_executions exec_id done) }
        let st4 := { st3 with execution_history := (add_execution_log st3.execution_history exec_id now "completed" "Execution completed") }
        cleanup_old_executions now st4
      | EngineResult.err m =>
        let failedInfo : ExecutionInfo := { execution with status := "failed", error := some m }
        let st3 := { st2 with execution_history := (add_execution_log st2.execution_history exec_id now "failed" "Execution failed") }
        let st4 := { st3 with active_executions := (dictInsert st3.active_executions exec_id failedInfo) }
        cleanup_old_executions now st4

inductive StatusResult where
  | notFound
  | view (id : String) (status : String) (start_time : Nat)
      (result : Option String) (error : Option String)
deriving DecidableEq, Repr

/-- `execution_status` (worker.py lines 196-225): `result` is attached iff
completed, `error` iff failed. -/
def execution_status (st : WorkerState) (id : String) : StatusResult :=
  match dictLookup st.active_executions id with
  | none => StatusResult.notFound
  | some e =>
      StatusResult.view e.id e.status e.start_time
        (if e.status = "completed" then e.result else none)
        (if e.status = "failed" then e.error else none)

/-- Operations of the worker visible in the step-level model. -/
inductive WOp where
  | submit (id : String) (now : Nat) (content : String)
  | submitBad (now : Nat)
  | process (engine : EngineResult) (now : Nat)
deriving Repr

def wstep (op : WOp) (st : WorkerState) : WorkerState :=
  match op with
  | WOp.submit id now content => (execute_workflow id now (some content) st).2
  | WOp.submitBad now => (execute_workflow "" now none st).2
  | WOp.process engine now => processQueueItem engine now st

/-- Well-formedness of a worker state: record statuses are only queued,
completed or failed; every queued item whose record is live has record
status queued; queued execution ids are distinct. -/
def WFw (st : WorkerState) : Prop :=
  (∀ e ∈ st.active_executions,
     e.2.status = "queued" ∨ e.2.status = "completed" ∨ e.2.status = "failed") ∧
  (∀ q ∈ st.queue, ∀ info, dictLookup st.active_executions q.1 = some info →
     info.status = "queued") ∧
  (st.queue.map Prod.fst).Nodup

/-- Side condition of an operation: a submission carries a fresh id
(modelling uuid4 uniqueness). -/
def opOK : WOp → WorkerState → Prop
  | WOp.submit id _ _, st =>
      dictLookup st.active_executions id = none ∧ id ∉ st.queue.map Prod.fst
  | WOp.submitBad _, _ => True
  | WOp.process _ _, _ => True

/-! ## Association-list lemmas -/

theorem dictLookup_erase_self {α β : Type} [DecidableEq α]
    (l : List (α × β)) (k : α) : dictLookup (dictErase l k) k = none := by
  induction l with
  | nil => rfl
  | cons e rest ih =>
    by_cases h : e.1 = k
    · simpa [dictErase, h] using ih
    · simp [dictErase, dictLookup, h, ih]

theorem dictLookup_erase_ne {α β : Type} [DecidableEq α]
    (l : List (α × β)) (k k' : α) (h : k' ≠ k) :
    dictLookup (dictErase l k) k' = dictLookup l k' := by
  induction l with
  | nil => rfl
  | cons e rest ih =>
    simp only [dictErase]
    by_cases he : e.1 = k
    · have hne : e.1 ≠ k' := by
        intro hc
        apply h
        rw [← hc]
        exact he
      rw [if_pos he, ih]
      simp only [dictLookup]
      rw [if_neg hne]
    · rw [if_neg he]
      simp only [dictLookup]
      by_cases he' : e.1 = k'
      · rw [if_pos he', if_pos he']
      · rw [if_neg he', if_neg he', ih]

theorem dictLookup_insert_self {α β : Type} [DecidableEq α]
    (l : List (α × β)) (k : α) (v : β) :
    dictLookup (dictInsert l k v) k = some v := by
  simp [dictInsert, dictLookup]

theorem dictLookup_insert_ne {α β : Type} [DecidableEq α]
    (l : List (α × β)) (k k' : α) (v : β) (h : k' ≠ k) :
    dictLookup (dictInsert l k v) k' = dictLookup l k' := by
  have : k ≠ k' := fun hc => h hc.symm
  simp [dictInsert, dictLookup, this, dictLookup_erase_ne l k k' h]

theorem dictLookup_erase_some {α β : Type} [DecidableEq α]
    (l : List (α × β)) (k k' : α) (v : β)
    (h : dictLookup (dictErase l k) k' = some v) :
    dictLookup l k' = some v := by
  by_cases hk : k' = k
  · rw [hk, dictLookup_erase_self] at h
    exact absurd h (by simp)
  · rwa [dictLookup_erase_ne l k k' hk] at h

theorem dictLookup_erase_none {α β : Type} [DecidableEq α]
    (l : List (α × β)) (k k' : α)
    (h : dictLookup l k' = none) :
    dictLookup (dictErase l k) k' = none := by
  by_cases hk : k' = k
  · rw [hk]
    exact dictLookup_erase_self l k
  · rwa [dictLookup_erase_ne l k k' hk]

/-! ## Claim theorems -/

/-- C10: a worker-side submission whose body lacks the `content` field
returns an error response and leaves the worker state unchanged: no
ExecutionRecord is created, no history entry is appended, and nothing is
enqueued. -/
theorem submit_missing_content_no_trace (id : String) (now : Nat) (st : WorkerState) :
    execute_workflow id now none st =
      (SubmitResult.badRequest "Missing workflow content", st) := rfl

/-- C9: `container_execute` requires an existing record with status
`running`: with no record for the artifact it returns the
`Container not found` error envelope without contacting any worker, and
with a record whose status is not `running` it returns an invalid-state
error, also without forwarding to the worker. -/
theorem execute_requires_running (fwd : ForwardResult) (a c : String) (s : ManagerState) :
    (dictLookup s.containers a = none →
      container_execute fwd ⟨some a, some c⟩ s =
        (ExecResult.notFound "Container not found", false)) ∧
    (∀ info, dictLookup s.containers a = some info → info.status ≠ "running" →
      container_execute fwd ⟨some a, some c⟩ s =
        (ExecResult.invalidState
          (String.append "Container is not running: " info.status), false)) := by
  constructor
  · intro h
    simp [container_execute, h]
  · intro info h hs
    simp [container_execute, h, hs]

theorem execute_requires_running_witness :
    container_execute (ForwardResult.okResp "r") ⟨some "a1", some "w"⟩ ⟨[], []⟩ =
      (ExecResult.notFound "Container not found", false) :=
  (execute_requires_running (ForwardResult.okResp "r") "a1" "w" ⟨[], []⟩).1 rfl

/-- C6: `container_health` returns `stopped` when no record exists, and
when a record exists but the runtime reports the container missing it
releases the artifact's port, deletes its record, and returns `stopped`. -/
theorem health_purges_missing_container (o : HealthOracle) (now : Nat)
    (a : String) (s : ManagerState) :
    (dictLookup s.containers a = none →
      container_health o now a s = (HealthResult.stopped "Container not found", s)) ∧
    (∀ info, dictLookup s.containers a = some info → o.get = GetResult.notFound →
      container_health o now a s =
        (HealthResult.stopped "Container not found in Docker",
         { containers := dictErase s.containers a,
           active_ports := dictErase s.active_ports info.port })) := by
  constructor
  · intro h
    simp [container_health, h]
  · intro info h hg
    simp [container_health, h, hg]

theorem health_purges_missing_container_witness :
    container_health ⟨GetResult.notFound, true, "running", ProbeResult.ok "healthy"⟩ 7 "a1"
        ⟨[("a1", mkRunningInfo "a1" "c1" 5002 0)], [(5002, "a1")]⟩ =
      (HealthResult.stopped "Container not found in Docker",
       { containers := dictErase [("a1", mkRunningInfo "a1" "c1" 5002 0)] "a1",
         active_ports := dictErase [(5002, "a1")] (mkRunningInfo "a1" "c1" 5002 0).port }) :=
  (health_purges_missing_container ⟨GetResult.notFound, true, "running", ProbeResult.ok "healthy"⟩
    7 "a1" ⟨[("a1", mkRunningInfo "a1" "c1" 5002 0)], [(5002, "a1")]⟩).2
    (mkRunningInfo "a1" "c1" 5002 0) rfl rfl

theorem stop_container_none (o : StopOutcome) (a : String) (s : ManagerState)
    (h : dictLookup s.containers a = none) :
    stop_container o a s =
      (StopResult.success "Container not found or already stopped", s) := by
  simp [stop_container, h]

/-- C8: stop returns success when no record exists; when a record exists
and the runtime stop sequence either succeeds or reports the container
already gone, stop succeeds, the record is deleted, its port is absent from
the table, and a second stop succeeds again as a no-op. -/
theorem stop_idempotent (o1 o2 : StopOutcome) (a : String) (s : ManagerState) :
    (dictLookup s.containers a = none →
      stop_container o1 a s =
        (StopResult.success "Container not found or already stopped", s)) ∧
    (∀ info, dictLookup s.containers a = some info →
      (o1 = StopOutcome.stopped ∨ o1 = StopOutcome.notFound) →
      (∃ m, (stop_container o1 a s).1 = StopResult.success m) ∧
      dictLookup (stop_container o1 a s).2.containers a = none ∧
      dictLookup (stop_container o1 a s).2.active_ports info.port = none ∧
      stop_container o2 a (stop_container o1 a s).2 =
        (StopResult.success "Container not found or already stopped",
         (stop_container o1 a s).2)) := by
  constructor
  · intro h
    exact stop_container_none o1 a s h
  · intro info h ho
    have hstate : (stop_container o1 a s).2 =
        { containers := dictErase s.containers a,
          active_ports := dictErase s.active_ports info.port } := by
      rcases ho with h1 | h1 <;> simp [stop_container, h, h1]
    refine ⟨?_, ?_, ?_, ?_⟩
    · rcases ho with h1 | h1
      · exact ⟨"Container stopped and removed successfully", by simp [stop_container, h, h1]⟩
      · exact ⟨"Container not found or already removed", by simp [stop_container, h, h1]⟩
    · rw [hstate]
      exact dictLookup_erase_self s.containers a
    · rw [hstate]
      exact dictLookup_erase_self s.active_ports info.port
    · have hnone : dictLookup (stop_container o1 a s).2.containers a = none := by
        rw [hstate]
        exact dictLookup_erase_self s.containers a
      exact stop_container_none o2 a (stop_container o1 a s).2 hnone

theorem stop_idempotent_witness :
    dictLookup (stop_container StopOutcome.notFound "a1"
        ⟨[("a1", mkRunningInfo "a1" "c1" 5002 0)], [(5002, "a1")]⟩).2.containers "a1" = none ∧
    dictLookup (stop_container StopOutcome.notFound "a1"
        ⟨[("a1", mkRunningInfo "a1" "c1" 5002 0)], [(5002, "a1")]⟩).2.active_ports
        (mkRunningInfo "a1" "c1" 5002 0).port = none ∧
    stop_container StopOutcome.stopped "a1" (stop_container StopOutcome.notFound "a1"
        ⟨[("a1", mkRunningInfo "a1" "c1" 5002 0)], [(5002, "a1")]⟩).2 =
      (StopResult.success "Container not found or already stopped",
       (stop_container StopOutcome.notFound "a1"
        ⟨[("a1", mkRunningInfo "a1" "c1" 5002 0)], [(5002, "a1")]⟩).2) :=
  ((stop_idempotent StopOutcome.notFound StopOutcome.stopped "a1"
    ⟨[("a1", mkRunningInfo "a1" "c1" 5002 0)], [(5002, "a1")]⟩).2
    (mkRunningInfo "a1" "c1" 5002 0) rfl (Or.inr rfl)).2

/-- C7: when the record exists, the runtime reports the container running,
and the worker health probe is not a 2xx success (non-2xx response or
unreachable), health returns an error verdict, preserves the
ContainerRecord and its PortTable entry, and mutates only the record's
status, healthStatus, lastHealthCheck and lastError fields. -/
theorem health_error_paths_preserve_record (o : HealthOracle) (now : Nat)
    (a : String) (s : ManagerState) (info : ContainerInfo)
    (h : dictLookup s.containers a = some info)
    (hg : ∃ gs, o.get = GetResult.found gs)
    (hr : o.inspectRunning = true)
    (hp : ∀ ws, o.probe ≠ ProbeResult.ok ws) :
    (∃ m, (container_health o now a s).1 = HealthResult.error m) ∧
    (container_health o now a s).2.active_ports = s.active_ports ∧
    (∃ info2, dictLookup (container_health o now a s).2.containers a = some info2 ∧
      info2.artifact_id = info.artifact_id ∧
      info2.container_id = info.container_id ∧
      info2.port = info.port ∧
      info2.start_time = info.start_time ∧
      info2.status = "error") ∧
    (∀ b, b ≠ a → dictLookup (container_health o now a s).2.containers b =
      dictLookup s.containers b) := by
  obtain ⟨gs, hg⟩ := hg
  cases hprobe : o.probe with
  | ok ws => exact absurd hprobe (hp ws)
  | badStatus c =>
    have hcall : container_health o now a s =
        (HealthResult.error "Worker health check failed",
         { containers := dictInsert s.containers a
             { info with status := "error", health_status := "error",
                         last_health_check := now,
                         error := some "Worker health check failed" },
           active_ports := s.active_ports }) := by
      simp [container_health, h, hg, hr, hprobe]
    refine ⟨⟨"Worker health check failed", by rw [hcall]⟩, by rw [hcall], ?_, ?_⟩
    · refine ⟨({ info with status := "error", health_status := "error", last_health_check := now, error := some "Worker health check failed" }), ?_, rfl, rfl, rfl, rfl, rfl⟩
      rw [hcall]
      exact dictLookup_insert_self s.containers a _
    · intro b hb
      rw [hcall]
      exact dictLookup_insert_ne s.containers a b _ hb
  | unreachable m =>
    have hcall : container_health o now a s =
        (HealthResult.error "Failed to connect to worker",
         { containers := dictInsert s.containers a
             { info with status := "error", health_status := "unreachable",
                         last_health_check := now, error := some m },
           active_ports := s.active_ports }) := by
      simp [container_health, h, hg, hr, hprobe]
    refine ⟨⟨"Failed to connect to worker", by rw [hcall]⟩, by rw [hcall], ?_, ?_⟩
    · refine ⟨({ info with status := "error", health_status := "unreachable", last_health_check := now, error := some m }), ?_, rfl, rfl, rfl, rfl, rfl⟩
      rw [hcall]
      exact dictLookup_insert_self s.containers a _
    · intro b hb
      rw [hcall]
      exact dictLookup_insert_ne s.containers a b _ hb

theorem health_error_paths_preserve_record_witness :
    (container_health ⟨GetResult.found "running", true, "running",
        ProbeResult.badStatus 500⟩ 9 "a1"
        ⟨[("a1", mkRunningInfo "a1" "c1" 5002 0)], [(5002, "a1")]⟩).2.active_ports = [(5002, "a1")] ∧
    dictLookup (container_health ⟨GetResult.found "running", true, "running",
        ProbeResult.badStatus 500⟩ 9 "a1"
        ⟨[("a1", mkRunningInfo "a1" "c1" 5002 0)], [(5002, "a1")]⟩).2.containers "b1" =
      dictLookup [("a1", mkRunningInfo "a1" "c1" 5002 0)] "b1" :=
  ⟨(health_error_paths_preserve_record
      ⟨GetResult.found "running", true, "running", ProbeResult.badStatus 500⟩ 9 "a1"
      ⟨[("a1", mkRunningInfo "a1" "c1" 5002 0)], [(5002, "a1")]⟩
      (mkRunningInfo "a1" "c1" 5002 0) rfl ⟨"running", rfl⟩ rfl
      (fun ws h => by cases h)).2.1,
   (health_error_paths_preserve_record
      ⟨GetResult.found "running", true, "running", ProbeResult.badStatus 500⟩ 9 "a1"
      ⟨[("a1", mkRunningInfo "a1" "c1" 5002 0)], [(5002, "a1")]⟩
      (mkRunningInfo "a1" "c1" 5002 0) rfl ⟨"running", rfl⟩ rfl
      (fun ws h => by cases h)).2.2.2 "b1" (by decide)⟩

theorem createLoop_success_state (o : Nat → CreateResult) (a : String) (now : Nat)
    (s : ManagerState) (ports : List Nat) (cid : String) (p : Nat)
    (h : (createLoop o a now s ports).1 = StartResult.success cid p) :
    (createLoop o a now s ports).2 =
      { containers := dictInsert s.containers a (mkRunningInfo a cid p now),
        active_ports := dictInsert s.active_ports p a } := by
  induction ports with
  | nil => exact absurd h (by simp [createLoop])
  | cons q rest ih =>
    cases hq : o q with
    | ok cid2 hp2 =>
      have hred : createLoop o a now s (q :: rest) =
          (StartResult.success cid2 hp2,
           { containers := dictInsert s.containers a (mkRunningInfo a cid2 hp2 now),
             active_ports := dictInsert s.active_ports hp2 a }) := by
        simp [createLoop, hq]
      rw [hred] at h
      simp only [] at h
      have hcid : cid2 = cid := by
        cases h
        rfl
      have hp : hp2 = p := by
        cases h
        rfl
      rw [hred, hcid, hp]
    | portAllocated =>
      have hred : createLoop o a now s (q :: rest) = createLoop o a now s rest := by
        simp [createLoop, hq]
      rw [hred] at h ⊢
      exact ih h
    | fatal m =>
      have hred : createLoop o a now s (q :: rest) = (StartResult.error m, s) := by
        simp [createLoop, hq]
      rw [hred] at h
      exact absurd h (by simp)

theorem start_success_record (o : StartOracle) (now : Nat) (a : String)
    (s : ManagerState) (cid : String) (p : Nat)
    (h : (start_container o now a s).1 = StartResult.success cid p) :
    ∃ info, dictLookup (start_container o now a s).2.containers a = some info ∧
      info.container_id = cid ∧ info.port = p := by
  cases hc : dictLookup s.containers a with
  | none =>
    have hred : start_container o now a s = createLoop o.create a now s attemptPorts := by
      simp [start_container, hc]
    rw [hred] at h ⊢
    rw [createLoop_success_state o.create a now s attemptPorts cid p h]
    exact ⟨mkRunningInfo a cid p now, dictLookup_insert_self s.containers a _, rfl, rfl⟩
  | some info0 =>
    cases hg : o.getStatus with
    | found st =>
      by_cases hst : st = "running"
      · have hred : start_container o now a s =
            (StartResult.success info0.container_id info0.port, s) := by
          simp [start_container, hc, hg, hst]
        rw [hred] at h
        simp only [] at h
        have h1 : info0.container_id = cid := by
          cases h
          rfl
        have h2 : info0.port = p := by
          cases h
          rfl
        rw [hred]
        exact ⟨info0, hc, h1, h2⟩
      · have hred : start_container o now a s = createLoop o.create a now s attemptPorts := by
          simp [start_container, hc, hg, hst]
        rw [hred] at h ⊢
        rw [createLoop_success_state o.create a now s attemptPorts cid p h]
        exact ⟨mkRunningInfo a cid p now, dictLookup_insert_self s.containers a _, rfl, rfl⟩
    | notFound =>
      have hred : start_container o now a s =
          createLoop o.create a now
            { containers := dictErase s.containers a,
              active_ports := dictErase s.active_ports info0.port } attemptPorts := by
        simp [start_container, hc, hg]
      rw [hred] at h ⊢
      rw [createLoop_success_state o.create a now _ attemptPorts cid p h]
      exact ⟨mkRunningInfo a cid p now, dictLookup_insert_self _ a _, rfl, rfl⟩

/-- C1: when a start request for an artifact has succeeded with some
(containerId, port), a second start without an intervening stop, whose
runtime probe confirms the tracked container running, returns the same
(containerId, port) and leaves the state unchanged — no second container is
created for the artifact. -/
theorem start_idempotent_readoption (o1 o2 : StartOracle) (now1 now2 : Nat)
    (a : String) (s0 : ManagerState) (cid : String) (p : Nat)
    (h1 : (start_container o1 now1 a s0).1 = StartResult.success cid p)
    (h2 : o2.getStatus = GetResult.found "running") :
    start_container o2 now2 a (start_container o1 now1 a s0).2 =
      (StartResult.success cid p, (start_container o1 now1 a s0).2) := by
  obtain ⟨info, hl, hcid, hp⟩ := start_success_record o1 now1 a s0 cid p h1
  rw [← hcid, ← hp]
  generalize hS : (start_container o1 now1 a s0).2 = s1 at hl ⊢
  simp [start_container, hl, h2]

theorem start_idempotent_readoption_witness :
    start_container ⟨GetResult.found "running", fun _ => CreateResult.fatal "n"⟩ 1 "a1"
        (start_container ⟨GetResult.notFound, fun _ => CreateResult.ok "c1" 5002⟩ 0 "a1"
          ⟨[], []⟩).2 =
      (StartResult.success "c1" 5002,
       (start_container ⟨GetResult.notFound, fun _ => CreateResult.ok "c1" 5002⟩ 0 "a1"
          ⟨[], []⟩).2) :=
  start_idempotent_readoption
    ⟨GetResult.notFound, fun _ => CreateResult.ok "c1" 5002⟩
    ⟨GetResult.found "running", fun _ => CreateResult.fatal "n"⟩
    0 1 "a1" ⟨[], []⟩ "c1" 5002 rfl rfl

/-- C2 counterexample: after `start("a1")` succeeds on port 5002 and a
health check finds the container present but not running, port 5002 is
still in the PortTable while every ContainerRecord (here the only one,
which holds port 5002) has status `stopped` — refuting the invariant that
a port appears in the table only while a record with status ≠ stopped
holds it. -/
theorem port_table_invariant_counterexample :
    dictLookup (container_health ⟨GetResult.found "exited", false, "exited", ProbeResult.unreachable "x"⟩ 1 "a1" (start_container ⟨GetResult.notFound, fun _ => CreateResult.ok "c1" 5002⟩ 0 "a1" ⟨[], []⟩).2).2.active_ports 5002 = some "a1" ∧
    dictLookup (container_health ⟨GetResult.found "exited", false, "exited", ProbeResult.unreachable "x"⟩ 1 "a1" (start_container ⟨GetResult.notFound, fun _ => CreateResult.ok "c1" 5002⟩ 0 "a1" ⟨[], []⟩).2).2.containers "a1" = some { artifact_id := "a1", container_id := "c1", port := 5002, status := "stopped", start_time := 0, last_health_check := 1, health_status := "stopped", error := none } ∧
    (container_health ⟨GetResult.found "exited", false, "exited", ProbeResult.unreachable "x"⟩ 1 "a1" (start_container ⟨GetResult.notFound, fun _ => CreateResult.ok "c1" 5002⟩ 0 "a1" ⟨[], []⟩).2).2.containers.all (fun e => e.2.status == "stopped") = true := by
  decide

/-- C3 counterexample: a submitted execution is observed with record
status `queued` after submission and `completed` after the consumer
processes it, and at no observable state does the record's status field
equal `running` — refuting the claimed queued → running → terminal chain
on the ExecutionRecord's status. -/
theorem execution_running_status_counterexample :
    Option.map ExecutionInfo.status (dictLookup (execute_workflow "e1" 0 (some "wf") winit).2.active_executions "e1") = some "queued" ∧
    Option.map ExecutionInfo.status (dictLookup (processQueueItem (EngineResult.ok "res") 0 (execute_workflow "e1" 0 (some "wf") winit).2).active_executions "e1") = some "completed" ∧
    (execute_workflow "e1" 0 (some "wf") winit).2.active_executions.all (fun e => !(e.2.status == "running")) = true ∧
    (processQueueItem (EngineResult.ok "res") 0 (execute_workflow "e1" 0 (some "wf") winit).2).active_executions.all (fun e => !(e.2.status == "running")) = true := by
  decide

/-- C4 counterexample: after 21 submissions and one processed item — whose
iteration ends with the retention sweep — the global execution history
holds 21 executions, exceeding the fixed cap of 20; the sweep only evicts
history when it deletes an expired record. -/
theorem history_cap_counterexample :
    20 < (processQueueItem (EngineResult.ok "r") 0 ((List.range 21).foldl (fun st i => (execute_workflow (toString i) 0 (some "wf") st).2) winit)).execution_history.length := by
  decide

/-- C5 counterexample: with port 5002 already held by artifact b1 in the
PortTable, a start request for a1 whose runtime accepts the first creation
attempt succeeds on port 5002: the creation loop attempted (and bound) a
port already present in the PortTable, overwriting its entry while b1's
record still holds that port. -/
theorem port_allocation_counterexample :
    dictLookup (start_container ⟨GetResult.notFound, fun _ => CreateResult.ok "c1" 5002⟩ 0 "b1" ⟨[], []⟩).2.active_ports 5002 = some "b1" ∧
    (start_container ⟨GetResult.notFound, fun _ => CreateResult.ok "c2" 5002⟩ 1 "a1" (start_container ⟨GetResult.notFound, fun _ => CreateResult.ok "c1" 5002⟩ 0 "b1" ⟨[], []⟩).2).1 = StartResult.success "c2" 5002 ∧
    dictLookup (start_container ⟨GetResult.notFound, fun _ => CreateResult.ok "c2" 5002⟩ 1 "a1" (start_container ⟨GetResult.notFound, fun _ => CreateResult.ok "c1" 5002⟩ 0 "b1" ⟨[], []⟩).2).2.active_ports 5002 = some "a1" ∧
    dictLookup (start_container ⟨GetResult.notFound, fun _ => CreateResult.ok "c2" 5002⟩ 1 "a1" (start_container ⟨GetResult.notFound, fun _ => CreateResult.ok "c1" 5002⟩ 0 "b1" ⟨[], []⟩).2).2.containers "b1" = some (mkRunningInfo "b1" "c1" 5002 0) := by
  decide

theorem dictLookup_mem {α β : Type} [DecidableEq α]
    (l : List (α × β)) (k : α) (v : β) (h : dictLookup l k = some v) :
    (k, v) ∈ l := by
  induction l with
  | nil => cases h
  | cons e rest ih =>
    by_cases he : e.1 = k
    · rw [dictLookup, if_pos he] at h
      have hv : e.2 = v := by
        injection h
      have hkv : (k, v) = e := by
        rw [← he, ← hv]
      rw [hkv]
      exact List.mem_cons_self e rest
    · rw [dictLookup, if_neg he] at h
      exact List.mem_cons_of_mem e (ih h)

theorem sweepEvict_active (st1 : WorkerState) :
    (sweepEvict st1).active_executions = st1.active_executions := by
  unfold sweepEvict
  split
  · split <;> rfl
  · rfl

theorem sweepEvict_queue (st1 : WorkerState) :
    (sweepEvict st1).queue = st1.queue := by
  unfold sweepEvict
  split
  · split <;> rfl
  · rfl

theorem sweepEvict_history (st1 : WorkerState) :
    (sweepEvict st1).execution_history = st1.execution_history ∨
    ∃ k2, (sweepEvict st1).execution_history = dictErase st1.execution_history k2 := by
  unfold sweepEvict
  split
  · split
    · right
      exact ⟨_, rfl⟩
    · left
      rfl
  · left
    rfl

theorem sweepStep_not_expired (now : Nat) (k : String) (i : ExecutionInfo)
    (st : WorkerState)
    (h : ¬((i.status = "completed" ∨ i.status = "failed") ∧ 3600 < now - i.start_time)) :
    sweepStep now k i st = st := by
  unfold sweepStep
  rw [if_neg h]

theorem sweepStep_expired_active (now : Nat) (k : String) (i : ExecutionInfo)
    (st : WorkerState)
    (h : (i.status = "completed" ∨ i.status = "failed") ∧ 3600 < now - i.start_time) :
    (sweepStep now k i st).active_executions = dictErase st.active_executions k := by
  unfold sweepStep
  rw [if_pos h, sweepEvict_active]

theorem sweepStep_queue (now : Nat) (k : String) (i : ExecutionInfo) (st : WorkerState) :
    (sweepStep now k i st).queue = st.queue := by
  unfold sweepStep
  by_cases hexp : (i.status = "completed" ∨ i.status = "failed") ∧ 3600 < now - i.start_time
  · rw [if_pos hexp, sweepEvict_queue]
  · rw [if_neg hexp]

theorem sweepStep_history (now : Nat) (k : String) (i : ExecutionInfo) (st : WorkerState) :
    (sweepStep now k i st).execution_history = st.execution_history ∨
    ∃ k2, (sweepStep now k i st).execution_history = dictErase st.execution_history k2 := by
  unfold sweepStep
  by_cases hexp : (i.status = "completed" ∨ i.status = "failed") ∧ 3600 < now - i.start_time
  · rw [if_pos hexp]
    exact sweepEvict_history { st with active_executions := dictErase st.active_executions k }
  · rw [if_neg hexp]
    left
    rfl

theorem sweepStep_active_cases (now : Nat) (k : String) (i : ExecutionInfo)
    (st : WorkerState) :
    (sweepStep now k i st).active_executions = st.active_executions ∨
    (sweepStep now k i st).active_executions = dictErase st.active_executions k := by
  by_cases hexp : (i.status = "completed" ∨ i.status = "failed") ∧ 3600 < now - i.start_time
  · right
    exact sweepStep_expired_active now k i st hexp
  · left
    rw [sweepStep_not_expired now k i st hexp]

theorem sweepFold_queue (now : Nat) (entries : List (String × ExecutionInfo))
    (st : WorkerState) :
    (entries.foldl (fun s e => sweepStep now e.1 e.2 s) st).queue = st.queue := by
  induction entries generalizing st with
  | nil => rfl
  | cons e rest ih =>
    rw [List.foldl_cons, ih, sweepStep_queue]

theorem sweepFold_lookup_active_some (now : Nat) (entries : List (String × ExecutionInfo))
    (st : WorkerState) (id : String) (v : ExecutionInfo)
    (h : dictLookup (entries.foldl (fun s e => sweepStep now e.1 e.2 s) st).active_executions id = some v) :
    dictLookup st.active_executions id = some v := by
  induction entries generalizing st with
  | nil => exact h
  | cons e rest ih =>
    rw [List.foldl_cons] at h
    have h2 := ih (sweepStep now e.1 e.2 st) h
    rcases sweepStep_active_cases now e.1 e.2 st with hc | hc
    · rwa [hc] at h2
    · rw [hc] at h2
      exact dictLookup_erase_some st.active_executions e.1 id v h2

theorem sweepFold_lookup_active_none (now : Nat) (entries : List (String × ExecutionInfo))
    (st : WorkerState) (id : String)
    (h : dictLookup st.active_executions id = none) :
    dictLookup (entries.foldl (fun s e => sweepStep now e.1 e.2 s) st).active_executions id = none := by
  cases hf : dictLookup (entries.foldl (fun s e => sweepStep now e.1 e.2 s) st).active_executions id with
  | none => rfl
  | some v =>
    have := sweepFold_lookup_active_some now entries st id v hf
    rw [h] at this
    cases this

theorem sweepFold_lookup_history_some (now : Nat) (entries : List (String × ExecutionInfo))
    (st : WorkerState) (id : String) (l : List HistEntry)
    (h : dictLookup (entries.foldl (fun s e => sweepStep now e.1 e.2 s) st).execution_history id = some l) :
    dictLookup st.execution_history id = some l := by
  induction entries generalizing st with
  | nil => exact h
  | cons e rest ih =>
    rw [List.foldl_cons] at h
    have h2 := ih (sweepStep now e.1 e.2 st) h
    rcases sweepStep_history now e.1 e.2 st with hc | ⟨k2, hc⟩
    · rwa [hc] at h2
    · rw [hc] at h2
      exact dictLookup_erase_some st.execution_history k2 id l h2

theorem sweepFold_expired (now : Nat) (entries : List (String × ExecutionInfo))
    (st : WorkerState) (k : String) (i : ExecutionInfo)
    (hexp : (i.status = "completed" ∨ i.status = "failed") ∧ 3600 < now - i.start_time) :
    (k, i) ∈ entries →
    dictLookup (entries.foldl (fun s e => sweepStep now e.1 e.2 s) st).active_executions k = none := by
  induction entries generalizing st with
  | nil =>
    intro hmem
    cases hmem
  | cons e rest ih =>
    intro hmem
    rw [List.foldl_cons]
    rcases List.mem_cons.mp hmem with heq | hmem2
    · have hk : e.1 = k := by
        rw [← heq]
      have hi : e.2 = i := by
        rw [← heq]
      have hnone : dictLookup (sweepStep now e.1 e.2 st).active_executions k = none := by
        have hexp2 : (e.2.status = "completed" ∨ e.2.status = "failed") ∧
            3600 < now - e.2.start_time := by
          rw [hi]
          exact hexp
        rw [sweepStep_expired_active now e.1 e.2 st hexp2, hk]
        exact dictLookup_erase_self st.active_executions k
      exact sweepFold_lookup_active_none now rest (sweepStep now e.1 e.2 st) k hnone
    · exact ih (sweepStep now e.1 e.2 st) hmem2

theorem sweepFold_noop (now : Nat) (entries : List (String × ExecutionInfo))
    (st : WorkerState) :
    (∀ e ∈ entries,
      ¬((e.2.status = "completed" ∨ e.2.status = "failed") ∧ 3600 < now - e.2.start_time)) →
    entries.foldl (fun s e => sweepStep now e.1 e.2 s) st = st := by
  induction entries generalizing st with
  | nil =>
    intro _
    rfl
  | cons e rest ih =>
    intro h
    rw [List.foldl_cons, sweepStep_not_expired now e.1 e.2 st (h e (List.mem_cons_self e rest))]
    exact ih st (fun e2 he2 => h e2 (List.mem_cons_of_mem e he2))

/-- C4 amended: after a retention sweep, every ExecutionRecord in a
terminal state for more than one hour is gone from the live table and
status queries on it return NotFound, and every history entry that
survives the sweep is unchanged; however the sweep does not bound the
global history to the 20-entry cap — it evicts (at most) one
smallest-keyed history entry per deleted record, and a sweep that deletes
no record changes nothing at all. -/
theorem retention_sweep_amended :
    (∀ (now : Nat) (st : WorkerState) (id : String) (info : ExecutionInfo),
       dictLookup st.active_executions id = some info →
       (info.status = "completed" ∨ info.status = "failed") →
       3600 < now - info.start_time →
       dictLookup (cleanup_old_executions now st).active_executions id = none ∧
       execution_status (cleanup_old_executions now st) id = StatusResult.notFound) ∧
    (∀ (now : Nat) (st : WorkerState) (id : String) (l : List HistEntry),
       dictLookup (cleanup_old_executions now st).execution_history id = some l →
       dictLookup st.execution_history id = some l) ∧
    (∀ (now : Nat) (st : WorkerState),
       (∀ e ∈ st.active_executions,
         ¬((e.2.status = "completed" ∨ e.2.status = "failed") ∧ 3600 < now - e.2.start_time)) →
       cleanup_old_executions now st = st) := by
  refine ⟨?_, ?_, ?_⟩
  · intro now st id info hl hterm hold
    have hmem := dictLookup_mem st.active_executions id info hl
    have hnone := sweepFold_expired now st.active_executions st id info ⟨hterm, hold⟩ hmem
    refine ⟨hnone, ?_⟩
    unfold execution_status
    rw [show (cleanup_old_executions now st).active_executions =
        (st.active_executions.foldl (fun s e => sweepStep now e.1 e.2 s) st).active_executions from rfl]
    rw [hnone]
  · intro now st id l h
    exact sweepFold_lookup_history_some now st.active_executions st id l h
  · intro now st h
    exact sweepFold_noop now st.active_executions st h

theorem retention_sweep_amended_witness :
    dictLookup (cleanup_old_executions 4000
      ⟨[("e1", { id := "e1", status := "completed", start_time := 0,
                 result := some "r", error := none, logs := [] })],
       [("e1", [{ timestamp := 0, status := "queued", message := "m" }])], []⟩).active_executions
      "e1" = none ∧
    execution_status (cleanup_old_executions 4000
      ⟨[("e1", { id := "e1", status := "completed", start_time := 0,
                 result := some "r", error := none, logs := [] })],
       [("e1", [{ timestamp := 0, status := "queued", message := "m" }])], []⟩) "e1" =
      StatusResult.notFound :=
  retention_sweep_amended.1 4000
    ⟨[("e1", { id := "e1", status := "completed", start_time := 0,
               result := some "r", error := none, logs := [] })],
     [("e1", [{ timestamp := 0, status := "queued", message := "m" }])], []⟩
    "e1"
    { id := "e1", status := "completed", start_time := 0,
      result := some "r", error := none, logs := [] }
    rfl (Or.inl rfl) (by decide)

theorem findPortAux_some (active : List (Nat × String)) (ports : List Nat) (p : Nat) :
    ports.Pairwise (· ≤ ·) → findPortAux active ports = some p →
    p ∈ ports ∧ dictLookup active p = none ∧
    ∀ q ∈ ports, q < p → dictLookup active q ≠ none := by
  induction ports with
  | nil =>
    intro _ h
    cases h
  | cons r rest ih =>
    intro hsort h
    rw [List.pairwise_cons] at hsort
    obtain ⟨hr, hrest⟩ := hsort
    by_cases hfree : dictLookup active r = none
    · have hp : r = p := by
        rw [findPortAux, if_pos hfree] at h
        injection h
      subst hp
      refine ⟨List.mem_cons_self r rest, hfree, ?_⟩
      intro q hq hlt
      rcases List.mem_cons.mp hq with rfl | hq2
      · exact absurd hlt (lt_irrefl q)
      · exact absurd hlt (not_lt.mpr (hr q hq2))
    · rw [findPortAux, if_neg hfree] at h
      obtain ⟨hmem, hfreep, hall⟩ := ih hrest h
      refine ⟨List.mem_cons_of_mem r hmem, hfreep, ?_⟩
      intro q hq hlt
      rcases List.mem_cons.mp hq with rfl | hq2
      · exact hfree
      · exact hall q hq2 hlt

theorem findPortAux_none (active : List (Nat × String)) (ports : List Nat) :
    findPortAux active ports = none → ∀ q ∈ ports, dictLookup active q ≠ none := by
  induction ports with
  | nil =>
    intro _ q hq
    cases hq
  | cons r rest ih =>
    intro h q hq
    by_cases hfree : dictLookup active r = none
    · rw [findPortAux, if_pos hfree] at h
      cases h
    · rw [findPortAux, if_neg hfree] at h
      rcases List.mem_cons.mp hq with rfl | hq2
      · exact hfree
      · exact ih h q hq2

theorem portRange_pairwise : portRange.Pairwise (· ≤ ·) := by
  unfold portRange
  rw [List.pairwise_map]
  exact (List.pairwise_lt_range _).imp (fun hab => by omega)

theorem mem_portRange (q : Nat) : q ∈ portRange ↔ BASE_PORT ≤ q ∧ q ≤ MAX_PORT := by
  unfold portRange BASE_PORT MAX_PORT
  simp only [List.mem_map, List.mem_range]
  constructor
  · rintro ⟨i, hi, rfl⟩
    omega
  · rintro ⟨h1, h2⟩
    exact ⟨q - 5002, by omega, by omega⟩

theorem createLoop_state_independent (o : Nat → CreateResult) (a : String)
    (now : Nat) (s s2 : ManagerState) (ports : List Nat) :
    (createLoop o a now s ports).1 = (createLoop o a now s2 ports).1 := by
  induction ports with
  | nil => rfl
  | cons q rest ih =>
    cases hq : o q with
    | ok cid hp => simp [createLoop, hq]
    | portAllocated =>
      rw [show createLoop o a now s (q :: rest) = createLoop o a now s rest from
            by simp [createLoop, hq],
          show createLoop o a now s2 (q :: rest) = createLoop o a now s2 rest from
            by simp [createLoop, hq]]
      exact ih
    | fatal m => simp [createLoop, hq]

theorem createLoop_allAllocated (o : Nat → CreateResult) (a : String) (now : Nat)
    (s : ManagerState) (ports : List Nat) :
    (∀ q ∈ ports, o q = CreateResult.portAllocated) →
    createLoop o a now s ports = (StartResult.error "No available ports in range", s) := by
  induction ports with
  | nil =>
    intro _
    rfl
  | cons q rest ih =>
    intro h
    rw [show createLoop o a now s (q :: rest) = createLoop o a now s rest from
          by simp [createLoop, h q (List.mem_cons_self q rest)]]
    exact ih (fun q2 hq2 => h q2 (List.mem_cons_of_mem q hq2))

/-- C5 amended: `find_available_port` does satisfy the lowest-free-port
contract over [BASE_PORT, MAX_PORT] = [5002, 5050] and fails when every
port in that range is taken, but the creation loop of `start_container`
does not use it: its candidate list is the 100 ports 5002..5101 (reaching
beyond MAX_PORT), its outcome is entirely independent of the PortTable (it
relies only on the runtime's port-conflict errors, so it can attempt and
bind a port already held in the table), and it fails only after all 100
candidates report a port conflict. -/
theorem port_allocation_amended :
    (∀ (active : List (Nat × String)) (p : Nat),
       find_available_port active = some p →
       BASE_PORT ≤ p ∧ p ≤ MAX_PORT ∧ dictLookup active p = none ∧
       ∀ q, BASE_PORT ≤ q → q < p → dictLookup active q ≠ none) ∧
    (∀ active : List (Nat × String), find_available_port active = none →
       ∀ q, BASE_PORT ≤ q → q ≤ MAX_PORT → dictLookup active q ≠ none) ∧
    (∀ (o : Nat → CreateResult) (a : String) (now : Nat) (s s2 : ManagerState)
       (ports : List Nat),
       (createLoop o a now s ports).1 = (createLoop o a now s2 ports).1) ∧
    (∀ (o : Nat → CreateResult) (a : String) (now : Nat) (s : ManagerState),
       (∀ q, o q = CreateResult.portAllocated) →
       createLoop o a now s attemptPorts =
         (StartResult.error "No available ports in range", s)) ∧
    attemptPorts.length = 100 ∧ BASE_PORT + 99 ∈ attemptPorts ∧ MAX_PORT < BASE_PORT + 99 := by
  refine ⟨?_, ?_, ?_, ?_, ?_, ?_, ?_⟩
  · intro active p h
    unfold find_available_port at h
    obtain ⟨hmem, hfree, hall⟩ := findPortAux_some active portRange p portRange_pairwise h
    obtain ⟨hp1, hp2⟩ := (mem_portRange p).mp hmem
    refine ⟨hp1, hp2, hfree, ?_⟩
    intro q hq1 hq2
    exact hall q ((mem_portRange q).mpr ⟨hq1, by omega⟩) hq2
  · intro active h q h1 h2
    unfold find_available_port at h
    exact findPortAux_none active portRange h q ((mem_portRange q).mpr ⟨h1, h2⟩)
  · intro o a now s s2 ports
    exact createLoop_state_independent o a now s s2 ports
  · intro o a now s h
    exact createLoop_allAllocated o a now s attemptPorts (fun q _ => h q)
  · simp [attemptPorts]
  · exact List.mem_map.mpr ⟨99, List.mem_range.mpr (by omega), rfl⟩
  · decide

theorem port_allocation_amended_witness :
    dictLookup [(5002, "b1")] 5002 ≠ none :=
  (port_allocation_amended.1 [(5002, "b1")] 5003 (by decide)).2.2.2 5002
    (by decide) (by decide)

/-- C2 amended: PortTable entries are inserted together with their
ContainerRecord when start creates a container, and removed together with
the record by stop (success or already-gone) and by the missing-container
purge of health; however a health check that finds the container present
but not running marks the record stopped while leaving its port entry in
the table, so a port can remain mapped while its owning record has status
`stopped` (and, per the C5 counterexample, a start superseding a
non-running container can orphan the old port entry). -/
theorem port_record_sync_amended :
    (∀ (s : ManagerState) (a : String) (info : ContainerInfo) (o : StopOutcome),
       dictLookup s.containers a = some info →
       (o = StopOutcome.stopped ∨ o = StopOutcome.notFound) →
       dictLookup (stop_container o a s).2.containers a = none ∧
       dictLookup (stop_container o a s).2.active_ports info.port = none) ∧
    (∀ (s : ManagerState) (a : String) (info : ContainerInfo) (o : HealthOracle) (now : Nat),
       dictLookup s.containers a = some info → o.get = GetResult.notFound →
       dictLookup (container_health o now a s).2.containers a = none ∧
       dictLookup (container_health o now a s).2.active_ports info.port = none) ∧
    (∀ (o : StartOracle) (now : Nat) (a : String) (s : ManagerState) (cid : String) (p : Nat),
       dictLookup s.containers a = none →
       (start_container o now a s).1 = StartResult.success cid p →
       dictLookup (start_container o now a s).2.containers a =
         some (mkRunningInfo a cid p now) ∧
       dictLookup (start_container o now a s).2.active_ports p = some a) ∧
    (∀ (s : ManagerState) (a : String) (info : ContainerInfo) (o : HealthOracle)
       (now : Nat) (gs : String),
       dictLookup s.containers a = some info → o.get = GetResult.found gs →
       o.inspectRunning = false →
       (container_health o now a s).2.active_ports = s.active_ports ∧
       Option.map ContainerInfo.status
         (dictLookup (container_health o now a s).2.containers a) = some "stopped") := by
  refine ⟨?_, ?_, ?_, ?_⟩
  · intro s a info o h ho
    have hstate : (stop_container o a s).2 =
        { containers := dictErase s.containers a,
          active_ports := dictErase s.active_ports info.port } := by
      rcases ho with h1 | h1 <;> simp [stop_container, h, h1]
    rw [hstate]
    exact ⟨dictLookup_erase_self s.containers a, dictLookup_erase_self s.active_ports info.port⟩
  · intro s a info o now h hg
    have hstate : (container_health o now a s).2 =
        { containers := dictErase s.containers a,
          active_ports := dictErase s.active_ports info.port } := by
      simp [container_health, h, hg]
    rw [hstate]
    exact ⟨dictLookup_erase_self s.containers a, dictLookup_erase_self s.active_ports info.port⟩
  · intro o now a s cid p h hsucc
    have hred : start_container o now a s = createLoop o.create a now s attemptPorts := by
      simp [start_container, h]
    rw [hred] at hsucc ⊢
    rw [createLoop_success_state o.create a now s attemptPorts cid p hsucc]
    exact ⟨dictLookup_insert_self s.containers a _, dictLookup_insert_self s.active_ports p a⟩
  · intro s a info o now gs h hg hr
    have hstate : (container_health o now a s).2 =
        { containers := dictInsert s.containers a
            { info with status := "stopped", health_status := "stopped",
                        last_health_check := now },
          active_ports := s.active_ports } := by
      simp [container_health, h, hg, hr]
    rw [hstate]
    refine ⟨rfl, ?_⟩
    rw [dictLookup_insert_self s.containers a _]
    rfl

theorem port_record_sync_amended_witness :
    (container_health ⟨GetResult.found "exited", false, "exited", ProbeResult.ok "h"⟩ 3 "a1"
       ⟨[("a1", mkRunningInfo "a1" "c1" 5002 0)], [(5002, "a1")]⟩).2.active_ports =
      [(5002, "a1")] ∧
    Option.map ContainerInfo.status
      (dictLookup (container_health ⟨GetResult.found "exited", false, "exited",
        ProbeResult.ok "h"⟩ 3 "a1"
        ⟨[("a1", mkRunningInfo "a1" "c1" 5002 0)], [(5002, "a1")]⟩).2.containers "a1") =
      some "stopped" :=
  port_record_sync_amended.2.2.2
    ⟨[("a1", mkRunningInfo "a1" "c1" 5002 0)], [(5002, "a1")]⟩ "a1"
    (mkRunningInfo "a1" "c1" 5002 0)
    ⟨GetResult.found "exited", false, "exited", ProbeResult.ok "h"⟩ 3 "exited"
    rfl rfl rfl

theorem dictErase_mem {α β : Type} [DecidableEq α]
    (l : List (α × β)) (k : α) (e : α × β) (h : e ∈ dictErase l k) : e ∈ l := by
  induction l with
  | nil => cases h
  | cons e2 rest ih =>
    by_cases he2 : e2.1 = k
    · rw [dictErase, if_pos he2] at h
      exact List.mem_cons_of_mem e2 (ih h)
    · rw [dictErase, if_neg he2] at h
      rcases List.mem_cons.mp h with heq | h2
      · rw [heq]
        exact List.mem_cons_self e2 rest
      · exact List.mem_cons_of_mem e2 (ih h2)

theorem dictInsert_mem {α β : Type} [DecidableEq α]
    (l : List (α × β)) (k : α) (v : β) (e : α × β) (h : e ∈ dictInsert l k v) :
    e = (k, v) ∨ e ∈ l := by
  rcases List.mem_cons.mp h with heq | h2
  · exact Or.inl heq
  · exact Or.inr (dictErase_mem l k e h2)

theorem sweepFold_active_mem (now : Nat) (entries : List (String × ExecutionInfo))
    (st : WorkerState) (e : String × ExecutionInfo)
    (h : e ∈ (entries.foldl (fun s e2 => sweepStep now e2.1 e2.2 s) st).active_executions) :
    e ∈ st.active_executions := by
  induction entries generalizing st with
  | nil => exact h
  | cons e2 rest ih =>
    rw [List.foldl_cons] at h
    have h2 := ih (sweepStep now e2.1 e2.2 st) h
    rcases sweepStep_active_cases now e2.1 e2.2 st with hc | hc
    · rwa [hc] at h2
    · rw [hc] at h2
      exact dictErase_mem st.active_executions e2.1 e h2

theorem WFw_cleanup (now : Nat) (st : WorkerState) (h : WFw st) :
    WFw (cleanup_old_executions now st) := by
  obtain ⟨h1, h2, h3⟩ := h
  refine ⟨?_, ?_, ?_⟩
  · intro e he
    exact h1 e (sweepFold_active_mem now st.active_executions st e he)
  · intro q hq info hl
    rw [show (cleanup_old_executions now st).queue = st.queue from
          sweepFold_queue now st.active_executions st] at hq
    exact h2 q hq info
      (sweepFold_lookup_active_some now st.active_executions st q.1 info hl)
  · rw [show (cleanup_old_executions now st).queue = st.queue from
          sweepFold_queue now st.active_executions st]
    exact h3

theorem cleanup_lookup_cases (now : Nat) (st : WorkerState) (id : String) :
    dictLookup (cleanup_old_executions now st).active_executions id = none ∨
    dictLookup (cleanup_old_executions now st).active_executions id =
      dictLookup st.active_executions id := by
  cases hf : dictLookup (cleanup_old_executions now st).active_executions id with
  | none => exact Or.inl rfl
  | some v =>
    right
    rw [sweepFold_lookup_active_some now st.active_executions st id v hf]

/-- C3 amended: starting from the empty worker state and stepping by
submissions (with fresh uuids) and queue-consumer iterations, every
ExecutionRecord's status is only ever `queued`, `completed` or `failed` —
the status field is never set to `running` (the running phase exists only
as a history entry) — and once a record is terminal no step changes its
status: it either survives unchanged or is removed by retention. -/
theorem execution_state_machine_amended :
    WFw winit ∧
    ∀ (st : WorkerState) (op : WOp), WFw st → opOK op st →
      WFw (wstep op st) ∧
      ∀ (id : String) (info : ExecutionInfo),
        dictLookup st.active_executions id = some info →
        (info.status = "completed" ∨ info.status = "failed") →
        (dictLookup (wstep op st).active_executions id = none ∨
         dictLookup (wstep op st).active_executions id = some info) := by
  constructor
  · exact ⟨fun e he => absurd he (List.not_mem_nil e),
      fun q hq => absurd hq (List.not_mem_nil q), List.nodup_nil⟩
  · intro st op hWF hOK
    obtain ⟨h1, h2, h3⟩ := hWF
    cases op with
    | submitBad now =>
      exact ⟨⟨h1, h2, h3⟩, fun id info hl _ => Or.inr hl⟩
    | submit id now content =>
      obtain ⟨hfresh, hqfresh⟩ := hOK
      have hact : (wstep (WOp.submit id now content) st).active_executions =
          dictInsert st.active_executions id
            { id := id, status := "queued", start_time := now,
              result := none, error := none, logs := [] } := rfl
      have hqueue : (wstep (WOp.submit id now content) st).queue =
          st.queue ++ [(id, content)] := rfl
      constructor
      · refine ⟨?_, ?_, ?_⟩
        · intro e he
          rw [hact] at he
          rcases dictInsert_mem st.active_executions id _ e he with heq | h2e
          · rw [heq]
            exact Or.inl rfl
          · exact h1 e h2e
        · intro q hq info hl
          rw [hqueue] at hq
          rw [hact] at hl
          rcases List.mem_append.mp hq with hq1 | hq2
          · by_cases hid : q.1 = id
            · exact absurd (List.mem_map.mpr ⟨q, hq1, hid⟩) hqfresh
            · rw [dictLookup_insert_ne st.active_executions id q.1 _ hid] at hl
              exact h2 q hq1 info hl
          · have hq1 : q.1 = id := by
              rw [List.mem_singleton.mp hq2]
            rw [hq1, dictLookup_insert_self] at hl
            injection hl with he
            rw [← he]
        · rw [hqueue, List.map_append]
          refine List.Nodup.append h3 (List.nodup_singleton id) ?_
          intro x hx hx2
          rw [List.mem_singleton.mp hx2] at hx
          exact hqfresh hx
      · intro id2 info hl ht
        by_cases hid : id2 = id
        · rw [hid, hfresh] at hl
          cases hl
        · right
          rw [hact, dictLookup_insert_ne st.active_executions id id2 _ hid]
          exact hl
    | process engine now =>
      cases hqe : st.queue with
      | nil =>
        have hstep : wstep (WOp.process engine now) st = st := by
          simp [wstep, processQueueItem, hqe]
        rw [hstep]
        exact ⟨⟨h1, h2, h3⟩, fun id info hl _ => Or.inr hl⟩
      | cons qc rest =>
        obtain ⟨qid, qcontent⟩ := qc
        have hqid_tail : qid ∉ rest.map Prod.fst := by
          rw [hqe] at h3
          simp only [List.map_cons] at h3
          exact (List.nodup_cons.mp h3).1
        have h3tail : (rest.map Prod.fst).Nodup := by
          rw [hqe] at h3
          simp only [List.map_cons] at h3
          exact (List.nodup_cons.mp h3).2
        cases hlq : dictLookup st.active_executions qid with
        | none =>
          have hstep : wstep (WOp.process engine now) st =
              cleanup_old_executions now { st with queue := rest } := by
            simp [wstep, processQueueItem, hqe, hlq]
          have hWF1 : WFw { st with queue := rest } := by
            refine ⟨h1, ?_, h3tail⟩
            intro q hq info hl
            refine h2 q ?_ info hl
            rw [hqe]
            exact List.mem_cons_of_mem _ hq
          constructor
          · rw [hstep]
            exact WFw_cleanup now _ hWF1
          · intro id info hl ht
            rw [hstep]
            rcases cleanup_lookup_cases now { st with queue := rest } id with hc | hc
            · exact Or.inl hc
            · right
              rw [hc]
              exact hl
        | some execution =>
          have hqmem : (qid, qcontent) ∈ st.queue := by
            rw [hqe]
            exact List.mem_cons_self _ _
          have hqstatus : execution.status = "queued" :=
            h2 (qid, qcontent) hqmem execution hlq
          cases engine with
          | ok res =>
            obtain ⟨hist, hstep⟩ :
                ∃ hist, wstep (WOp.process (EngineResult.ok res) now) st =
                  cleanup_old_executions now
                    { active_executions := (dictInsert st.active_executions qid ({ execution with status := "completed", result := some res })), execution_history := hist, queue := rest } :=
              ⟨add_execution_log (add_execution_log st.execution_history qid now "running" "Starting execution") qid now "completed" "Execution completed",
               by simp [wstep, processQueueItem, hqe, hlq]⟩
            have hWF1 : WFw { active_executions := (dictInsert st.active_executions qid ({ execution with status := "completed", result := some res })), execution_history := hist, queue := rest } := by
              refine ⟨?_, ?_, h3tail⟩
              · intro e he
                rcases dictInsert_mem st.active_executions qid _ e he with heq | h2e
                · rw [heq]
                  exact Or.inr (Or.inl rfl)
                · exact h1 e h2e
              · intro q hq info hl
                have hid : q.1 ≠ qid := by
                  intro hc
                  exact hqid_tail (hc ▸ List.mem_map.mpr ⟨q, hq, rfl⟩)
                rw [dictLookup_insert_ne st.active_executions qid q.1 _ hid] at hl
                exact h2 q (by rw [hqe]; exact List.mem_cons_of_mem _ hq) info hl
            constructor
            · rw [hstep]
              exact WFw_cleanup now _ hWF1
            · intro id info hl ht
              have hid : id ≠ qid := by
                intro hc
                rw [hc, hlq] at hl
                injection hl with he
                rw [← he, hqstatus] at ht
                rcases ht with h | h <;> exact absurd h (by decide)
              rw [hstep]
              rcases cleanup_lookup_cases now _ id with hc | hc
              · exact Or.inl hc
              · right
                rw [hc, dictLookup_insert_ne st.active_executions qid id _ hid]
                exact hl
          | err m =>
            obtain ⟨hist, hstep⟩ :
                ∃ hist, wstep (WOp.process (EngineResult.err m) now) st =
                  cleanup_old_executions now
                    { active_executions := (dictInsert st.active_executions qid ({ execution with status := "failed", error := some m })), execution_history := hist, queue := rest } :=
              ⟨add_execution_log (add_execution_log st.execution_history qid now "running" "Starting execution") qid now "failed" "Execution failed",
               by simp [wstep, processQueueItem, hqe, hlq]⟩
            have hWF1 : WFw { active_executions := (dictInsert st.active_executions qid ({ execution with status := "failed", error := some m })), execution_history := hist, queue := rest } := by
              refine ⟨?_, ?_, h3tail⟩
              · intro e he
                rcases dictInsert_mem st.active_executions qid _ e he with heq | h2e
                · rw [heq]
                  exact Or.inr (Or.inr rfl)
                · exact h1 e h2e
              · intro q hq info hl
                have hid : q.1 ≠ qid := by
                  intro hc
                  exact hqid_tail (hc ▸ List.mem_map.mpr ⟨q, hq, rfl⟩)
                rw [dictLookup_insert_ne st.active_executions qid q.1 _ hid] at hl
                exact h2 q (by rw [hqe]; exact List.mem_cons_of_mem _ hq) info hl
            constructor
            · rw [hstep]
              exact WFw_cleanup now _ hWF1
            · intro id info hl ht
              have hid : id ≠ qid := by
                intro hc
                rw [hc, hlq] at hl
                injection hl with he
                rw [← he, hqstatus] at ht
                rcases ht with h | h <;> exact absurd h (by decide)
              rw [hstep]
              rcases cleanup_lookup_cases now _ id with hc | hc
              · exact Or.inl hc
              · right
                rw [hc, dictLookup_insert_ne st.active_executions qid id _ hid]
                exact hl

theorem execution_state_machine_amended_witness :
    dictLookup (wstep (WOp.process (EngineResult.ok "x") 0)
      ⟨[("e1", { id := "e1", status := "completed", start_time := 0,
                 result := some "r", error := none, logs := [] })], [],
       []⟩).active_executions "e1" = none ∨
    dictLookup (wstep (WOp.process (EngineResult.ok "x") 0)
      ⟨[("e1", { id := "e1", status := "completed", start_time := 0,
                 result := some "r", error := none, logs := [] })], [],
       []⟩).active_executions "e1" =
      some { id := "e1", status := "completed", start_time := 0,
             result := some "r", error := none, logs := [] } :=
  (execution_state_machine_amended.2
    ⟨[("e1", { id := "e1", status := "completed", start_time := 0,
               result := some "r", error := none, logs := [] })], [], []⟩
    (WOp.process (EngineResult.ok "x") 0)
    ⟨fun e he => by
        rw [List.mem_singleton.mp he]
        exact Or.inr (Or.inl rfl),
      fun q hq => absurd hq (List.not_mem_nil q),
      List.nodup_nil⟩
    trivial).2 "e1"
    { id := "e1", status := "completed", start_time := 0,
      result := some "r", error := none, logs := [] }
    rfl (Or.inl rfl)

end Spec2Proof
